import Mathlib

/-!
Verification development for the crows-tetris game core (src/src/main.rs).

The Rust source is shallowly embedded: the grid `[[u8; GRID_WIDTH]; GRID_HEIGHT]`
becomes a list of lists of naturals (cells are written only as 0 or 1), `i32`
coordinates become `Int`, and code that can panic on an out-of-bounds index
(a negative `i32` cast to `usize` wraps to a huge value) returns `Option`:
`none` models the panic.  The `Instant`-based timer is abstracted as a boolean
frame input (`elapsed`) saying whether the drop interval has passed, and the
`rand::thread_rng().gen_range(0..7)` draw is an explicit `Fin 7` parameter.
File I/O in `save_high_scores` and the egui rendering calls have no effect on
the simulation state and are omitted.
-/

/-- `GRID_WIDTH` from main.rs line 8. -/
def GRID_WIDTH : Nat := 100

/-- `GRID_HEIGHT` from main.rs line 9. -/
def GRID_HEIGHT : Nat := 32

/-- A board row: one row of the `u8` grid. -/
abbrev Row := List Nat

/-- The board grid, `grid: [[u8; GRID_WIDTH]; GRID_HEIGHT]` (row-major, index `[y][x]`). -/
abbrev Grid := List Row

/-- `enum GameState` from main.rs. -/
inductive GameState where
  | StartScreen
  | Playing
  | GameOver
deriving DecidableEq, Repr

/-- `enum BlockType` from main.rs. -/
inductive BlockType where
  | I
  | O
  | T
  | S
  | Z
  | J
  | L
deriving DecidableEq, Repr

/-- `struct Block` from main.rs: kind, `(x, y)` anchor, and shape matrix. -/
structure Block where
  block_type : BlockType
  position : Int × Int
  shape : List (List Nat)
deriving DecidableEq, Repr

/-- The simulation-relevant fields of `struct CrowsTetris`.  `last_update`,
`drop_speed` and `selected_difficulty` are timing/UI configuration and are
abstracted into the per-frame `Input.elapsed` flag. -/
structure CT where
  state : GameState
  score : Int
  high_scores : List (List Char × Int)
  new_high_score_name : List Char
  is_paused : Bool
  grid : Grid
  active_block : Option Block
deriving DecidableEq, Repr

/-- One frame's external stimuli: the keys egui reports as pressed, whether the
drop timer has elapsed, the random draw used by any spawn this frame, and the
buttons clicked on the start/game-over screens. -/
structure Input where
  space : Bool
  left : Bool
  right : Bool
  up : Bool
  down : Bool
  escape : Bool
  elapsed : Bool
  rand : Fin 7
  start_clicked : Bool
  submit_clicked : Bool
  back_clicked : Bool
deriving DecidableEq, Repr

/-- An all-empty row `[0; GRID_WIDTH]`. -/
def zeroRow : Row := List.replicate GRID_WIDTH 0

/-- The all-empty grid `[[0; GRID_WIDTH]; GRID_HEIGHT]`. -/
def emptyGrid : Grid := List.replicate GRID_HEIGHT zeroRow

/-- Read grid cell `grid[y][x]` for nonnegative indices. -/
def getCellN (g : Grid) (y x : Nat) : Nat := (g.getD y []).getD x 0

/-- Read grid cell `grid[y as usize][x as usize]`; used only where the source
has already established `0 ≤ y < GRID_HEIGHT` and `0 ≤ x < GRID_WIDTH`. -/
def getCellZ (g : Grid) (y x : Int) : Nat := getCellN g y.toNat x.toNat

/-- Write grid cell `grid[y][x] = v` (indices known in range at use sites). -/
def set2 (g : Grid) (y x v : Nat) : Grid := g.set y ((g.getD y []).set x v)

/-- The canonical shape table of `generate_random_block` (main.rs lines 120-128). -/
def blockShape : BlockType → List (List Nat)
  | BlockType.I => [[1, 1, 1, 1]]
  | BlockType.O => [[1, 1], [1, 1]]
  | BlockType.T => [[0, 1, 0], [1, 1, 1]]
  | BlockType.S => [[0, 1, 1], [1, 1, 0]]
  | BlockType.Z => [[1, 1, 0], [0, 1, 1]]
  | BlockType.J => [[1, 0, 0], [1, 1, 1]]
  | BlockType.L => [[0, 0, 1], [1, 1, 1]]

/-- The `(dx, dy)` offsets of the shape cells selected by cell test `t`, in the
source's iteration order (rows outer, columns inner). -/
def offsetsBy (t : Nat → Bool) (shape : List (List Nat)) : List (Nat × Nat) :=
  shape.enum.flatMap fun dr => dr.2.enum.filterMap fun dc =>
    if t dc.2 then some (dc.1, dr.1) else none

/-- Absolute board coordinates of the selected shape cells at anchor `p`. -/
def absCellsBy (t : Nat → Bool) (shape : List (List Nat)) (p : Int × Int) : List (Int × Int) :=
  (offsetsBy t shape).map fun q => (p.1 + (q.1 : Int), p.2 + (q.2 : Int))

/-- Cells with `cell == 1` (the test used by `check_collision` and `lock_block`). -/
def absCells1 (shape : List (List Nat)) (p : Int × Int) : List (Int × Int) :=
  absCellsBy (fun c => c == 1) shape p

/-- Cells with `*cell != 0` (the test used by `check_collision_with_position`). -/
def absCellsNZ (shape : List (List Nat)) (p : Int × Int) : List (Int × Int) :=
  absCellsBy (fun c => c != 0) shape p

/-- The cell loop of `check_collision` (main.rs lines 163-176): out of bounds
left/right/bottom is a collision; an occupied (`== 1`) in-bounds cell with
`y >= 0` is a collision; cells with `y < 0` are skipped for occupancy. -/
def ccGo (g : Grid) : List (Int × Int) → Bool
  | [] => false
  | c :: rest =>
    if c.1 < 0 ∨ (GRID_WIDTH : Int) ≤ c.1 ∨ (GRID_HEIGHT : Int) ≤ c.2 then true
    else if 0 ≤ c.2 ∧ getCellZ g c.2 c.1 = 1 then true
    else ccGo g rest

/-- `check_collision` specialized to an explicit grid and optional block. -/
def checkCollisionAt (g : Grid) (ab : Option Block) : Bool :=
  match ab with
  | none => false
  | some b => ccGo g (absCells1 b.shape b.position)

/-- `fn check_collision(&self) -> bool` (main.rs lines 161-179). -/
def check_collision (s : CT) : Bool := checkCollisionAt s.grid s.active_block

/-- The cell loop of `check_collision_with_position` (main.rs lines 372-389).
After the boundary test the source indexes `self.grid[grid_y as usize][..]`
without a `grid_y >= 0` guard; a negative `grid_y` wraps to a huge `usize` and
the array index panics, modeled as `none`. -/
def ccwpGo (g : Grid) : List (Int × Int) → Option Bool
  | [] => some false
  | c :: rest =>
    if c.1 < 0 ∨ (GRID_WIDTH : Int) ≤ c.1 ∨ (GRID_HEIGHT : Int) ≤ c.2 then some true
    else if c.2 < 0 then none
    else if getCellZ g c.2 c.1 ≠ 0 then some true
    else ccwpGo g rest

/-- `fn check_collision_with_position(&self, block_position: (i32, i32)) -> bool`
(main.rs lines 367-393). -/
def check_collision_with_position (s : CT) (p : Int × Int) : Option Bool :=
  match s.active_block with
  | none => some false
  | some b => ccwpGo s.grid (absCellsNZ b.shape p)

/-- The cell loop of `lock_block` (main.rs lines 184-194): cells with `y >= 0`
are written as occupied (`grid[y][x] = 1`); cells with `y < 0` are silently
skipped.  The write itself panics (`none`) if `y` or `x` is out of bounds. -/
def lock_cells (g : Grid) : List (Int × Int) → Option Grid
  | [] => some g
  | c :: rest =>
    if 0 ≤ c.2 then
      if 0 ≤ c.1 ∧ c.1 < (GRID_WIDTH : Int) ∧ c.2 < (GRID_HEIGHT : Int) then
        lock_cells (set2 g c.2.toNat c.1.toNat 1) rest
      else none
    else lock_cells g rest

/-- `fn lock_block(&mut self)` (main.rs lines 182-196). -/
def lock_block (s : CT) : Option CT :=
  match s.active_block with
  | none => some s
  | some b => (lock_cells s.grid (absCells1 b.shape b.position)).map fun g => { s with grid := g }

/-- Row test `self.grid[y].iter().all(|&cell| cell == 1)` of `clear_lines`. -/
def rowFull (r : Row) : Bool := r.all fun c => c == 1

/-- A row that survives the clearing pass. -/
def notFull (r : Row) : Bool := !rowFull r

/-- The loop of `clear_lines` (main.rs lines 202-215): `y` runs over the given
list (the source iterates `(0..GRID_HEIGHT).rev()`), `ng` is `new_grid`, `nr`
is the `new_row` write cursor, `sc` is `self.score`.  A full row adds 100 and is
skipped; otherwise the row is copied to `ng[nr]` and, when the underflow guard
`1 > new_row` fires, the function returns early leaving `self.grid` unchanged. -/
def clearLinesAux (g : Grid) : List Nat → Grid → Nat → Int → Grid × Int
  | [], ng, _, sc => (ng, sc)
  | y :: ys, ng, nr, sc =>
    if rowFull (g.getD y []) then clearLinesAux g ys ng nr (sc + 100)
    else
      let ng1 := ng.set nr (g.getD y [])
      if 1 > nr then (g, sc) else clearLinesAux g ys ng1 (nr - 1) sc

/-- `fn clear_lines(&mut self)` (main.rs lines 199-217), returning the updated
grid and score. -/
def clear_lines (g : Grid) (sc : Int) : Grid × Int :=
  clearLinesAux g (List.range GRID_HEIGHT).reverse
    (List.replicate GRID_HEIGHT zeroRow) (GRID_HEIGHT - 1) sc

/-- `fn generate_random_block(&self) -> Block` (main.rs lines 110-134), with the
`gen_range(0..7)` draw passed in as `r`. -/
def generate_random_block (r : Fin 7) : Block :=
  let bt : BlockType :=
    match r.val with
    | 0 => BlockType.I
    | 1 => BlockType.O
    | 2 => BlockType.T
    | 3 => BlockType.S
    | 4 => BlockType.Z
    | 5 => BlockType.J
    | _ => BlockType.L
  { block_type := bt
    position := ((GRID_WIDTH : Int) / 2 - 1, 0)
    shape := blockShape bt }

/-- `fn reset_game(&mut self)` (main.rs lines 101-107). -/
def reset_game (s : CT) (r : Fin 7) : CT :=
  { s with
    state := GameState.Playing
    score := 0
    is_paused := false
    grid := emptyGrid
    active_block := some (generate_random_block r) }

/-- `fn move_block_down(&mut self)` (main.rs lines 136-158): move the active
block down one cell; on collision revert, lock, clear lines, respawn (draw `k`),
and enter `GameOver` if the fresh block immediately collides. -/
def move_block_down (s : CT) (k : Fin 7) : Option CT :=
  match s.active_block with
  | none => some s
  | some b =>
    let moved : Block := { b with position := (b.position.1, b.position.2 + 1) }
    let s1 : CT := { s with active_block := some moved }
    if check_collision s1 then
      let reverted : Block := { moved with position := (moved.position.1, moved.position.2 - 1) }
      let s2 : CT := { s1 with active_block := some reverted }
      match lock_block s2 with
      | none => none
      | some s3 =>
        let cl := clear_lines s3.grid s3.score
        let s4 : CT := { s3 with grid := cl.1, score := cl.2 }
        let s5 : CT := { s4 with active_block := some (generate_random_block k) }
        if check_collision s5 then some { s5 with state := GameState.GameOver } else some s5
    else some s1

/-- The Space-key pause toggle at the top of `render_gameplay` (main.rs 297-299). -/
def togglePause (s : CT) (i : Input) : CT :=
  if i.space then { s with is_paused := !s.is_paused } else s

/-- The ArrowLeft handler of `render_gameplay` (main.rs lines 320-335). -/
def arrow_left (s : CT) : Option CT := do
  let newPos := (s.active_block.map fun b => (b.position.1 - 1, b.position.2)).getD (0, 0)
  let hc ← check_collision_with_position s newPos
  if hc then pure s
  else
    match s.active_block with
    | none => pure s
    | some b =>
      if b.position.1 > 0 then
        pure { s with active_block := some { b with position := (b.position.1 - 1, b.position.2) } }
      else pure s

/-- The ArrowRight handler of `render_gameplay` (main.rs lines 337-352). -/
def arrow_right (s : CT) : Option CT := do
  let newPos := (s.active_block.map fun b => (b.position.1 + 1, b.position.2)).getD (0, 0)
  let hc ← check_collision_with_position s newPos
  if hc then pure s
  else
    match s.active_block with
    | none => pure s
    | some b =>
      if b.position.1 + ((b.shape.getD 0 []).length : Int) ≤ (GRID_WIDTH : Int) then
        pure { s with active_block := some { b with position := (b.position.1 + 1, b.position.2) } }
      else pure s

/-- `fn render_gameplay(&mut self, ...)` (main.rs lines 286-365), state effects
only: toggle pause on Space, run gravity when the drop timer elapsed, then — if
paused — return early (suppressing rendering and all player input); otherwise
handle ArrowLeft/ArrowRight (ArrowUp and ArrowDown are label-only stubs) and
Escape (which forces `GameOver`). -/
def render_gameplay (s0 : CT) (i : Input) : Option CT := do
  let s1 := togglePause s0 i
  let s2 ← if i.elapsed then move_block_down s1 i.rand else pure s1
  if s2.is_paused then
    pure s2
  else do
    let s3 ← if i.left then arrow_left s2 else pure s2
    let s4 ← if i.right then arrow_right s3 else pure s3
    pure (if i.escape then { s4 with state := GameState.GameOver } else s4)

/-- `fn render_start_screen` (main.rs lines 267-284), state effects only: the
Start Game button resets the game. -/
def render_start_screen (s : CT) (i : Input) : CT :=
  if i.start_clicked then reset_game s i.rand else s

/-- Stable descending insertion by score, modeling
`sort_by(|a, b| b.1.cmp(&a.1))` (main.rs line 407). -/
def insertScore (p : List Char × Int) : List (List Char × Int) → List (List Char × Int)
  | [] => [p]
  | q :: rest => if p.2 ≤ q.2 then q :: insertScore p rest else p :: q :: rest

/-- Descending stable sort of the high-score table. -/
def sortScores : List (List Char × Int) → List (List Char × Int)
  | [] => []
  | p :: rest => insertScore p (sortScores rest)

/-- `fn render_game_over` (main.rs lines 395-420), state effects only: Submit
Score (with a nonempty name) records the score, clears the name box and returns
to the start screen; Back to Start returns to the start screen.  The
`save_high_scores` file write has no effect on the simulation state. -/
def render_game_over (s : CT) (i : Input) : CT :=
  let s1 :=
    if i.submit_clicked = true ∧ s.new_high_score_name ≠ [] then
      { s with
        high_scores := (sortScores (s.high_scores ++ [(s.new_high_score_name, s.score)])).take 10
        new_high_score_name := []
        state := GameState.StartScreen }
    else s
  if i.back_clicked then { s1 with state := GameState.StartScreen } else s1

/-- `fn update(&mut self, ...)` (main.rs lines 250-263): dispatch one frame on
the current phase.  The Q-key branch only closes the window and changes no
simulation state. -/
def update (s : CT) (i : Input) : Option CT :=
  match s.state with
  | GameState.StartScreen => some (render_start_screen s i)
  | GameState.Playing => render_gameplay s i
  | GameState.GameOver => some (render_game_over s i)

/-- Rust `str::split(',')`: split a character list at every comma, keeping
empty pieces. -/
def splitComma : List Char → List (List Char)
  | [] => [[]]
  | c :: rest =>
    if c = ',' then [] :: splitComma rest
    else
      match splitComma rest with
      | [] => [[c]]
      | s :: ss => (c :: s) :: ss

/-- Decimal value of a digit string. -/
def digitsVal (ds : List Char) : Nat :=
  ds.foldl (fun a c => 10 * a + (c.toNat - ('0').toNat)) 0

/-- Rust `str::parse::<i32>()`: an optional sign followed by at least one
digit, with the value required to fit in `i32`. -/
def parse_i32 (s : List Char) : Option Int :=
  let sd : Int × List Char :=
    match s with
    | '+' :: r => (1, r)
    | '-' :: r => (-1, r)
    | _ => (1, s)
  if sd.2 ≠ [] ∧ sd.2.all (fun c => '0' ≤ c ∧ c ≤ '9') then
    let v : Int := sd.1 * (digitsVal sd.2 : Int)
    if -(2 ^ 31) ≤ v ∧ v ≤ 2 ^ 31 - 1 then some v else none
  else none

/-- The per-line closure of `load_high_scores` (main.rs lines 53-63): a failed
line read (`line.ok()?`, modeled by `none`) is skipped, as is any line that
does not split into exactly two comma-separated parts or whose second part
fails `parse::<i32>()`. -/
def parseRecord (lr : Option (List Char)) : Option (List Char × Int) := do
  let line ← lr
  let parts := splitComma line
  if parts.length = 2 then
    match parse_i32 (parts.getD 1 []) with
    | some sc => some (parts.getD 0 [], sc)
    | none => none
  else none

/-- `fn load_high_scores() -> Vec<(String, i32)>` (main.rs lines 49-68).
`none` for the whole file models a failed `File::open`. -/
def load_high_scores (file : Option (List (Option (List Char)))) : List (List Char × Int) :=
  match file with
  | none => []
  | some ls => ls.filterMap parseRecord

/-- Modelled from the spec: rotation is absent from src — the ArrowUp handler in
`render_gameplay` (main.rs lines 354-356) only emits a "Rotated" label.  Spec
§4.4: a 90° rotation computed as a transpose-and-reverse of the shape's
row/column matrix. -/
def transposeS (m : List (List Nat)) : List (List Nat) :=
  (List.range (m.headD []).length).map fun j => m.map fun r => r.getD j 0

/-- Modelled from the spec: `rotate(shape) -> new_shape`, the
transpose-and-reverse 90° rotation of spec §4.4. -/
def rotate_shape (shape : List (List Nat)) : List (List Nat) :=
  (transposeS shape).map List.reverse

/-- Modelled from the spec: `rotate_active()` of spec §4.4/§4.5 — attempt the
rotation, validate the prospective rotated shape via the collision resolver at
the current anchor, commit on no collision, otherwise leave the shape
unchanged (no kick/nudge). -/
def rotate_active (s : CT) : CT :=
  match s.active_block with
  | none => s
  | some b =>
    let ns := rotate_shape b.shape
    if checkCollisionAt s.grid (some { b with shape := ns }) then s
    else { s with active_block := some { b with shape := ns } }

/-- A concrete O block, as spawned by `generate_random_block` with draw 1. -/
def blockO : Block := generate_random_block 1

/-- A concrete Playing-phase state: empty board, score 0, active O block. -/
def baseCT : CT :=
  { state := GameState.Playing
    score := 0
    high_scores := []
    new_high_score_name := []
    is_paused := false
    grid := emptyGrid
    active_block := some blockO }

/-- A frame input with the given arrow keys pressed and nothing else. -/
def inpOnly (l r d : Bool) : Input :=
  { space := false
    left := l
    right := r
    up := false
    down := d
    escape := false
    elapsed := false
    rand := 0
    start_clicked := false
    submit_clicked := false
    back_clicked := false }

/-- The O block two rows above the floor, where the next gravity step locks. -/
def blockO30 : Block := { blockO with position := (49, 30) }

/-- `baseCT` with the O block about to land. -/
def dropCT : CT := { baseCT with active_block := some blockO30 }

/-- A concrete GameOver-phase state. -/
def overCT : CT :=
  { state := GameState.GameOver
    score := 700
    high_scores := []
    new_high_score_name := []
    is_paused := false
    grid := emptyGrid
    active_block := some blockO }

/-- `baseCT` with the pause flag set. -/
def pausedCT : CT := { baseCT with is_paused := true }

/-- A frame in which only the drop timer fired. -/
def tickInput : Input := { inpOnly false false false with elapsed := true }

/-! ### Helper lemmas -/

theorem replicate_set {α : Type} (z b : α) :
    ∀ (n : Nat) (L : List α),
      (List.replicate (n + 1) z ++ L).set n b = List.replicate n z ++ b :: L := by
  intro n
  induction n with
  | zero => intro L; simp
  | succ k ih =>
    intro L
    rw [List.replicate_succ (n := k + 1), List.cons_append, List.set_cons_succ, ih,
      List.replicate_succ, List.cons_append]

theorem range_reverse_succ (m : Nat) :
    (List.range (m + 1)).reverse = m :: (List.range m).reverse := by
  simp [List.range_succ]

theorem length_filter_split (l : List Row) :
    (l.filter notFull).length + (l.filter rowFull).length = l.length := by
  induction l with
  | nil => simp
  | cons a t ih =>
    by_cases h : rowFull a <;> simp [List.filter_cons, h, notFull] <;> omega


theorem clearLinesAux_cons_full (g : Grid) (ys : List Nat) (ng : Grid) (nr : Nat) (sc : Int)
    (y : Nat) (h : rowFull (g.getD y []) = true) :
    clearLinesAux g (y :: ys) ng nr sc = clearLinesAux g ys ng nr (sc + 100) := by
  rw [clearLinesAux, if_pos h]

theorem clearLinesAux_cons_nf_zero (g : Grid) (ys : List Nat) (ng : Grid) (sc : Int)
    (y : Nat) (h : rowFull (g.getD y []) = false) :
    clearLinesAux g (y :: ys) ng 0 sc = (g, sc) := by
  rw [clearLinesAux]
  simp only [List.getD_eq_getElem?_getD] at h ⊢
  simp [h]

theorem clearLinesAux_cons_nf_succ (g : Grid) (ys : List Nat) (ng : Grid) (nr0 : Nat) (sc : Int)
    (y : Nat) (h : rowFull (g.getD y []) = false) :
    clearLinesAux g (y :: ys) ng (nr0 + 1) sc =
      clearLinesAux g ys (ng.set (nr0 + 1) (g.getD y [])) nr0 sc := by
  rw [clearLinesAux]
  simp only [List.getD_eq_getElem?_getD] at h ⊢
  simp [h]

theorem clearLinesAux_spec (g : Grid) :
    ∀ (m nr : Nat) (sc : Int), m ≤ g.length → g.length = GRID_HEIGHT →
      nr + 1 + ((g.drop m).filter notFull).length = GRID_HEIGHT →
      clearLinesAux g (List.range m).reverse
          (List.replicate (nr + 1) zeroRow ++ (g.drop m).filter notFull) nr sc =
        if m = nr + 1 ∧ ((g.take m).filter notFull).length = m then (g, sc)
        else
          (List.replicate (nr + 1 - ((g.take m).filter notFull).length) zeroRow
              ++ (g.take m).filter notFull ++ (g.drop m).filter notFull,
           sc + 100 * ((m - ((g.take m).filter notFull).length : Nat) : Int)) := by
  intro m
  induction m with
  | zero =>
    intro nr sc hm hlen hnr
    have hc : ¬(0 = nr + 1 ∧ ((g.take 0).filter notFull).length = 0) := by
      rintro ⟨h, -⟩; omega
    rw [List.range_zero, List.reverse_nil, if_neg hc]
    simp [clearLinesAux]
  | succ k ih =>
    intro nr sc hm hlen hnr
    have hk : k < g.length := Nat.lt_of_lt_of_le (Nat.lt_succ_self k) hm
    have hdropk : g.drop k = g.getD k [] :: g.drop (k + 1) := by
      rw [List.drop_eq_getElem_cons hk, List.getD_eq_getElem _ _ hk]
    have htake : g.take (k + 1) = g.take k ++ [g.getD k []] := by
      rw [List.take_succ, List.getElem?_eq_getElem hk, List.getD_eq_getElem _ _ hk]
      rfl
    have hdlen : (g.drop (k + 1)).length = GRID_HEIGHT - (k + 1) := by
      rw [List.length_drop, hlen]
    have hdfle : ((g.drop (k + 1)).filter notFull).length ≤ GRID_HEIGHT - (k + 1) := by
      rw [← hdlen]; exact List.length_filter_le _ _
    have htfle : ((g.take k).filter notFull).length ≤ k := by
      calc ((g.take k).filter notFull).length ≤ (g.take k).length := List.length_filter_le _ _
        _ ≤ k := by rw [List.length_take]; omega
    rw [range_reverse_succ]
    by_cases hfull : rowFull (g.getD k []) = true
    · -- the row y = k is full: 100 points, no copy
      have hfullN : rowFull (g[k]?.getD []) = true := by
        rw [← List.getD_eq_getElem?_getD]; exact hfull
      have hfd : (g.drop k).filter notFull = (g.drop (k + 1)).filter notFull := by
        rw [hdropk, List.filter_cons]
        simp [notFull, hfullN]
      have hft : (g.take (k + 1)).filter notFull = (g.take k).filter notFull := by
        rw [htake, List.filter_append, List.filter_cons]
        simp [notFull, hfullN]
      have IH := ih nr (sc + 100) (Nat.le_of_lt hk) hlen (by rw [hfd]; exact hnr)
      rw [hfd] at IH
      rw [clearLinesAux_cons_full g _ _ _ _ _ hfull, IH]
      have hcl : ¬(k = nr + 1 ∧ ((g.take k).filter notFull).length = k) := by
        rintro ⟨h1, -⟩
        omega
      have hcr : ¬(k + 1 = nr + 1 ∧ ((g.take (k + 1)).filter notFull).length = k + 1) := by
        rintro ⟨-, h2⟩
        rw [hft] at h2
        omega
      rw [if_neg hcl, if_neg hcr, hft, Prod.mk.injEq]
      refine ⟨rfl, ?_⟩
      omega
    · -- the row y = k is not full: it is copied to new_grid[nr]
      replace hfull : rowFull (g.getD k []) = false := by
        cases h : rowFull (g.getD k []) with
        | false => rfl
        | true => exact absurd h hfull
      have hfullN : rowFull (g[k]?.getD []) = false := by
        rw [← List.getD_eq_getElem?_getD]; exact hfull
      have hnf : notFull (g.getD k []) = true := by simp [notFull, hfullN]
      have hfd : (g.drop k).filter notFull = g.getD k [] :: (g.drop (k + 1)).filter notFull := by
        rw [hdropk, List.filter_cons, if_pos hnf]
      have hft : (g.take (k + 1)).filter notFull =
          (g.take k).filter notFull ++ [g.getD k []] := by
        rw [htake, List.filter_append, List.filter_cons, if_pos hnf]
        rfl
      cases nr with
      | zero =>
        -- underflow guard fires: early return with the original grid
        have hm0 : k = 0 := by omega
        subst hm0
        have hc : (0 + 1 = 0 + 1 ∧ ((g.take (0 + 1)).filter notFull).length = 0 + 1) := by
          refine ⟨rfl, ?_⟩
          rw [hft]
          simp
        rw [if_pos hc, clearLinesAux_cons_nf_zero g _ _ _ _ hfull]
      | succ nr0 =>
        have hset : (List.replicate (nr0 + 1 + 1) zeroRow ++
            (g.drop (k + 1)).filter notFull).set (nr0 + 1) (g.getD k []) =
            List.replicate (nr0 + 1) zeroRow ++
              (g.getD k [] :: (g.drop (k + 1)).filter notFull) := by
          rw [replicate_set]
        have IH := ih nr0 sc (Nat.le_of_lt hk) hlen (by rw [hfd, List.length_cons]; omega)
        rw [hfd] at IH
        rw [clearLinesAux_cons_nf_succ g _ _ _ _ _ hfull, hset, IH]
        by_cases hcond : k = nr0 + 1 ∧ ((g.take k).filter notFull).length = k
        · have hcr : (k + 1 = nr0 + 1 + 1 ∧
              ((g.take (k + 1)).filter notFull).length = k + 1) := by
            refine ⟨by omega, ?_⟩
            rw [hft, List.length_append, hcond.2]
            simp
          rw [if_pos hcond, if_pos hcr]
        · have hcr : ¬(k + 1 = nr0 + 1 + 1 ∧
              ((g.take (k + 1)).filter notFull).length = k + 1) := by
            rintro ⟨h1, h2⟩
            rw [hft, List.length_append] at h2
            simp at h2
            exact hcond ⟨by omega, by omega⟩
          rw [if_neg hcond, if_neg hcr, hft, Prod.mk.injEq]
          have hlen1 : ((g.take k).filter notFull ++ [g.getD k []]).length =
              ((g.take k).filter notFull).length + 1 := by simp
          rw [hlen1]
          constructor
          · have heq : nr0 + 1 + 1 - (((g.take k).filter notFull).length + 1) =
                nr0 + 1 - ((g.take k).filter notFull).length := by omega
            rw [heq]
            simp [List.append_assoc]
          · push_cast
            omega

theorem filter_eq_self_of_length (g : Grid) (p : Row → Bool)
    (h : (g.filter p).length = g.length) : g.filter p = g :=
  (List.filter_sublist g).eq_of_length h

theorem clear_lines_eq (g : Grid) (sc : Int) (hlen : g.length = GRID_HEIGHT) :
    clear_lines g sc =
      (List.replicate (GRID_HEIGHT - (g.filter notFull).length) zeroRow ++ g.filter notFull,
       sc + 100 * ((GRID_HEIGHT - (g.filter notFull).length : Nat) : Int)) := by
  have h32 : GRID_HEIGHT = 32 := rfl
  have hkle : (g.filter notFull).length ≤ GRID_HEIGHT := by
    rw [← hlen]; exact List.length_filter_le _ _
  have hdropH : g.drop GRID_HEIGHT = [] := by
    rw [← hlen, List.drop_length]
  have htakeH : g.take GRID_HEIGHT = g := by
    rw [← hlen, List.take_length]
  have hspec := clearLinesAux_spec g GRID_HEIGHT (GRID_HEIGHT - 1) sc
    (le_of_eq hlen.symm) hlen
    (by rw [hdropH]; simp; omega)
  rw [hdropH, htakeH] at hspec
  simp only [List.filter_nil, List.append_nil] at hspec
  have hH : GRID_HEIGHT - 1 + 1 = GRID_HEIGHT := by omega
  rw [hH] at hspec
  have hlhs : clear_lines g sc =
      clearLinesAux g (List.range GRID_HEIGHT).reverse
        (List.replicate GRID_HEIGHT zeroRow) (GRID_HEIGHT - 1) sc := rfl
  rw [hlhs, hspec]
  by_cases hall : (g.filter notFull).length = GRID_HEIGHT
  · have hcond : (GRID_HEIGHT = GRID_HEIGHT ∧ (g.filter notFull).length = GRID_HEIGHT) :=
      ⟨rfl, hall⟩
    rw [if_pos hcond]
    have hfg : g.filter notFull = g := by
      refine filter_eq_self_of_length g notFull ?_
      rw [hall, hlen]
    rw [hfg, hlen, Prod.mk.injEq]
    constructor
    · simp
    · simp
  · have hcond : ¬(GRID_HEIGHT = GRID_HEIGHT ∧ (g.filter notFull).length = GRID_HEIGHT) := by
      rintro ⟨-, h2⟩; exact hall h2
    rw [if_neg hcond]

/-- C1: on any well-formed W×H board, `clear_lines` removes exactly the rows in
which every cell is occupied: the resulting grid is again W×H, its bottom `k`
rows are the `k` non-full rows in their original top-to-bottom order, its top
`H - k` rows are all empty, and the score increases by exactly 100 per removed
(full) row; in particular when no row is full — e.g. on an all-empty board —
the board and score are unchanged. -/
theorem clear_lines_spec (g : Grid) (sc : Int)
    (hlen : g.length = GRID_HEIGHT) (hw : ∀ r ∈ g, r.length = GRID_WIDTH) :
    clear_lines g sc =
      (List.replicate (GRID_HEIGHT - (g.filter notFull).length) zeroRow ++ g.filter notFull,
       sc + 100 * ((g.filter rowFull).length : Int)) ∧
    (clear_lines g sc).1.length = GRID_HEIGHT ∧
    (∀ r ∈ (clear_lines g sc).1, r.length = GRID_WIDTH) ∧
    (g.filter rowFull = [] → clear_lines g sc = (g, sc)) := by
  have heq := clear_lines_eq g sc hlen
  have hsplit := length_filter_split g
  have hkle : (g.filter notFull).length ≤ GRID_HEIGHT := by
    rw [← hlen]; exact List.length_filter_le _ _
  have hcount : GRID_HEIGHT - (g.filter notFull).length = (g.filter rowFull).length := by
    omega
  refine ⟨?_, ?_, ?_, ?_⟩
  · rw [heq, hcount]
  · rw [heq]
    simp only [List.length_append, List.length_replicate]
    omega
  · rw [heq]
    intro r hr
    rcases List.mem_append.mp hr with h | h
    · rw [List.eq_of_mem_replicate h]
      simp [zeroRow]
    · exact hw r (List.mem_of_mem_filter h)
  · intro h0
    have hf0 : (g.filter rowFull).length = 0 := by rw [h0]; rfl
    have hk : (g.filter notFull).length = GRID_HEIGHT := by omega
    have hfg : g.filter notFull = g := by
      refine filter_eq_self_of_length g notFull ?_
      rw [hk, hlen]
    rw [heq, hfg, hlen]
    simp

/-- C1 witness: on the all-empty board with score 0 the hypotheses hold and the
clearing pass removes nothing, leaving board and score unchanged. -/
theorem clear_lines_spec_witness :
    (emptyGrid.length = GRID_HEIGHT ∧ ∀ r ∈ emptyGrid, r.length = GRID_WIDTH) ∧
    clear_lines emptyGrid 0 = (emptyGrid, 0) := by
  have hlen : emptyGrid.length = GRID_HEIGHT := by simp [emptyGrid]
  have hw : ∀ r ∈ emptyGrid, r.length = GRID_WIDTH := by
    intro r hr
    rw [List.eq_of_mem_replicate hr]
    simp [zeroRow]
  have h := clear_lines_spec emptyGrid 0 hlen hw
  refine ⟨⟨hlen, hw⟩, ?_⟩
  exact h.2.2.2 (by decide)

theorem ccGo_eq_true_iff (g : Grid) :
    ∀ cells : List (Int × Int),
      ccGo g cells = true ↔
        ∃ c ∈ cells,
          c.1 < 0 ∨ (GRID_WIDTH : Int) ≤ c.1 ∨ (GRID_HEIGHT : Int) ≤ c.2 ∨
            (0 ≤ c.2 ∧ getCellZ g c.2 c.1 = 1) := by
  intro cells
  induction cells with
  | nil => simp [ccGo]
  | cons c rest ih =>
    by_cases h1 : c.1 < 0 ∨ (GRID_WIDTH : Int) ≤ c.1 ∨ (GRID_HEIGHT : Int) ≤ c.2
    · rw [ccGo, if_pos h1]
      simp only [List.mem_cons, true_iff]
      exact ⟨c, Or.inl rfl, by tauto⟩
    · by_cases h2 : 0 ≤ c.2 ∧ getCellZ g c.2 c.1 = 1
      · rw [ccGo, if_neg h1, if_pos h2]
        simp only [List.mem_cons, true_iff]
        exact ⟨c, Or.inl rfl, by tauto⟩
      · rw [ccGo, if_neg h1, if_neg h2, ih]
        constructor
        · rintro ⟨x, hx, hv⟩
          exact ⟨x, List.mem_cons_of_mem c hx, hv⟩
        · rintro ⟨x, hx, hv⟩
          rcases List.mem_cons.mp hx with rfl | hx2
          · exact absurd hv (by tauto)
          · exact ⟨x, hx2, hv⟩

theorem ccwpGo_of_nonneg (g : Grid) :
    ∀ cells : List (Int × Int), (∀ c ∈ cells, 0 ≤ c.2) →
      ∃ r : Bool, ccwpGo g cells = some r ∧
        (r = true ↔
          ∃ c ∈ cells,
            c.1 < 0 ∨ (GRID_WIDTH : Int) ≤ c.1 ∨ (GRID_HEIGHT : Int) ≤ c.2 ∨
              getCellZ g c.2 c.1 ≠ 0) := by
  intro cells
  induction cells with
  | nil =>
    intro hy
    exact ⟨false, rfl, by simp⟩
  | cons c rest ih =>
    intro hy
    have hc : (0 : Int) ≤ c.2 := hy c (List.mem_cons_self c rest)
    by_cases h1 : c.1 < 0 ∨ (GRID_WIDTH : Int) ≤ c.1 ∨ (GRID_HEIGHT : Int) ≤ c.2
    · refine ⟨true, by rw [ccwpGo, if_pos h1], ?_⟩
      simp only [List.mem_cons, true_iff]
      exact ⟨c, Or.inl rfl, by tauto⟩
    · have h2 : ¬(c.2 < 0) := by omega
      by_cases h3 : getCellZ g c.2 c.1 ≠ 0
      · refine ⟨true, by rw [ccwpGo, if_neg h1, if_neg h2, if_pos h3], ?_⟩
        simp only [List.mem_cons, true_iff]
        exact ⟨c, Or.inl rfl, by tauto⟩
      · obtain ⟨r, hr, hiff⟩ := ih (fun x hx => hy x (List.mem_cons_of_mem c hx))
        refine ⟨r, by rw [ccwpGo, if_neg h1, if_neg h2, if_neg h3]; exact hr, ?_⟩
        rw [hiff]
        constructor
        · rintro ⟨x, hx, hv⟩
          exact ⟨x, List.mem_cons_of_mem c hx, hv⟩
        · rintro ⟨x, hx, hv⟩
          rcases List.mem_cons.mp hx with rfl | hx2
          · exact absurd hv (by tauto)
          · exact ⟨x, hx2, hv⟩

theorem ccwpGo_some_false (g : Grid) :
    ∀ cells : List (Int × Int), ccwpGo g cells = some false →
      ∀ c ∈ cells,
        0 ≤ c.1 ∧ c.1 < (GRID_WIDTH : Int) ∧ 0 ≤ c.2 ∧ c.2 < (GRID_HEIGHT : Int) ∧
          getCellZ g c.2 c.1 = 0 := by
  intro cells
  induction cells with
  | nil => intro _ c hc; cases hc
  | cons c rest ih =>
    intro hr x hx
    by_cases h1 : c.1 < 0 ∨ (GRID_WIDTH : Int) ≤ c.1 ∨ (GRID_HEIGHT : Int) ≤ c.2
    · rw [ccwpGo, if_pos h1] at hr
      cases hr
    · by_cases h2 : c.2 < 0
      · rw [ccwpGo, if_neg h1, if_pos h2] at hr
        cases hr
      · by_cases h3 : getCellZ g c.2 c.1 ≠ 0
        · rw [ccwpGo, if_neg h1, if_neg h2, if_pos h3] at hr
          cases hr
        · rw [ccwpGo, if_neg h1, if_neg h2, if_neg h3] at hr
          rcases List.mem_cons.mp hx with rfl | hx2
          · refine ⟨by omega, by omega, by omega, by omega, by omega⟩
          · exact ih hr x hx2

/-- C2 (amended): `check_collision` returns true iff some occupied shape cell,
offset by the anchor, has `x < 0`, `x ≥ W` or `y ≥ H`, or has `y ≥ 0` and lies
on an occupied board cell, and it is total.  `check_collision_with_position`
satisfies the same specification (with occupancy test `cell ≠ 0`) whenever
every occupied cell of the candidate placement has `y ≥ 0`; for cells with
`y < 0` it is not total (see the counterexample). -/
theorem collision_checks_spec (g : Grid) (b : Block) (s : CT) (p : Int × Int)
    (hab : s.active_block = some b) (hg : s.grid = g)
    (hy : ∀ c ∈ absCellsNZ b.shape p, 0 ≤ c.2) :
    (checkCollisionAt g (some b) = true ↔
      ∃ c ∈ absCells1 b.shape b.position,
        c.1 < 0 ∨ (GRID_WIDTH : Int) ≤ c.1 ∨ (GRID_HEIGHT : Int) ≤ c.2 ∨
          (0 ≤ c.2 ∧ getCellZ g c.2 c.1 = 1)) ∧
    (∃ r : Bool, check_collision_with_position s p = some r ∧
      (r = true ↔
        ∃ c ∈ absCellsNZ b.shape p,
          c.1 < 0 ∨ (GRID_WIDTH : Int) ≤ c.1 ∨ (GRID_HEIGHT : Int) ≤ c.2 ∨
            getCellZ g c.2 c.1 ≠ 0)) := by
  constructor
  · exact ccGo_eq_true_iff g (absCells1 b.shape b.position)
  · obtain ⟨r, hr, hiff⟩ := ccwpGo_of_nonneg g (absCellsNZ b.shape p) hy
    refine ⟨r, ?_, hiff⟩
    rw [check_collision_with_position, hab, hg]
    exact hr

/-- C2 counterexample: at candidate anchor `(49, -1)` on the empty board with an
O block, the single occupied cell `(49, -1)` satisfies no collision condition of
the claim (its `x` is in bounds, `y < H`, and `y < 0` is never an occupied
collision), yet `check_collision_with_position` does not return `false` — it
indexes the grid with a wrapped negative row and panics (modeled `none`). -/
theorem check_collision_with_position_cex :
    check_collision_with_position baseCT ((49 : Int), (-1 : Int)) = none ∧
    ¬∃ c ∈ absCellsNZ blockO.shape ((49 : Int), (-1 : Int)),
        c.1 < 0 ∨ (GRID_WIDTH : Int) ≤ c.1 ∨ (GRID_HEIGHT : Int) ≤ c.2 ∨
          (0 ≤ c.2 ∧ getCellZ emptyGrid c.2 c.1 = 1) := by
  constructor
  · rfl
  · decide

/-- C2 witness: at candidate anchor `(49, 0)` (all cells have `y ≥ 0`) both
collision checks meet the specification on the empty board. -/
theorem collision_checks_spec_witness :
    (baseCT.active_block = some blockO ∧ baseCT.grid = emptyGrid ∧
      ∀ c ∈ absCellsNZ blockO.shape ((49 : Int), (0 : Int)), 0 ≤ c.2) ∧
    ((checkCollisionAt emptyGrid (some blockO) = true ↔
      ∃ c ∈ absCells1 blockO.shape blockO.position,
        c.1 < 0 ∨ (GRID_WIDTH : Int) ≤ c.1 ∨ (GRID_HEIGHT : Int) ≤ c.2 ∨
          (0 ≤ c.2 ∧ getCellZ emptyGrid c.2 c.1 = 1)) ∧
    (∃ r : Bool, check_collision_with_position baseCT ((49 : Int), (0 : Int)) = some r ∧
      (r = true ↔
        ∃ c ∈ absCellsNZ blockO.shape ((49 : Int), (0 : Int)),
          c.1 < 0 ∨ (GRID_WIDTH : Int) ≤ c.1 ∨ (GRID_HEIGHT : Int) ≤ c.2 ∨
            getCellZ emptyGrid c.2 c.1 ≠ 0))) :=
  ⟨⟨rfl, rfl, by decide⟩,
    collision_checks_spec emptyGrid blockO baseCT ((49 : Int), (0 : Int)) rfl rfl (by decide)⟩

/-- C6 counterexample: the spawn anchor ignores the shape width.  For the I
piece (4-wide mask) the code places the anchor at `x = W/2 - 1 = 49`, while the
claimed centering formula `⌊W/2⌋ - ⌊shape_width/2⌋` gives `50 - 2 = 48`. -/
theorem spawn_anchor_cex :
    (generate_random_block 0).block_type = BlockType.I ∧
    (generate_random_block 0).position ≠
      ((GRID_WIDTH : Int) / 2 - (((generate_random_block 0).shape.getD 0 []).length : Int) / 2,
        0) := by
  decide

/-- C6 (amended): every spawned piece gets the anchor `(⌊W/2⌋ - 1, 0)`
regardless of its shape width; for every kind other than I (whose masks are 2
or 3 wide) this coincides with the claimed formula `(⌊W/2⌋ - ⌊shape_width/2⌋, 0)`,
and in particular the O piece spawns at `x = ⌊W/2⌋ - 1`. -/
theorem spawn_anchor_spec (r : Fin 7) :
    (generate_random_block r).position = ((GRID_WIDTH : Int) / 2 - 1, 0) ∧
    ((generate_random_block r).block_type ≠ BlockType.I →
      (GRID_WIDTH : Int) / 2 - 1 =
        (GRID_WIDTH : Int) / 2 -
          (((generate_random_block r).shape.getD 0 []).length : Int) / 2) := by
  revert r
  decide

/-- C6 witness: the O piece (draw 1) spawns at `(49, 0)` and, not being an I
piece, matches the centering formula. -/
theorem spawn_anchor_spec_witness :
    (generate_random_block 1).block_type ≠ BlockType.I ∧
    (GRID_WIDTH : Int) / 2 - 1 =
      (GRID_WIDTH : Int) / 2 -
        (((generate_random_block 1).shape.getD 0 []).length : Int) / 2 :=
  ⟨by decide, (spawn_anchor_spec 1).2 (by decide)⟩

/-- C8: `reset_game`, callable in any phase including GameOver, resets the
whole simulation in one pure transition: the board becomes all-empty (every
cell reads 0), the score becomes 0, the phase becomes Playing, and a fresh
active piece is spawned.  Being a single pure function of the state, it admits
no observable partial-reset intermediate state. -/
theorem reset_game_spec (s : CT) (r : Fin 7) :
    (reset_game s r).state = GameState.Playing ∧
    (reset_game s r).score = 0 ∧
    (reset_game s r).grid = emptyGrid ∧
    (∀ y : Fin GRID_HEIGHT, ∀ x : Fin GRID_WIDTH,
      getCellN (reset_game s r).grid y.val x.val = 0) ∧
    (reset_game s r).active_block = some (generate_random_block r) := by
  refine ⟨rfl, rfl, rfl, ?_, rfl⟩
  intro y x
  show getCellN emptyGrid y.val x.val = 0
  have hy : (emptyGrid.getD y.val []) = zeroRow := by
    rw [emptyGrid, List.getD_eq_getElem _ _ (by simp [GRID_HEIGHT])]
    simp
  rw [getCellN, hy, zeroRow, List.getD_eq_getElem _ _ (by simp [GRID_WIDTH])]
  simp

/-- C9: loading high scores parses newline-delimited name,score records.  A
failed file open yields the empty list rather than an error; a line whose read
failed is skipped; a line that does not split into exactly two comma-separated
parts, or whose score part fails integer parsing, is skipped; a well-formed
line contributes exactly its (name, score) pair in place. -/
theorem load_high_scores_spec :
    load_high_scores none = [] ∧
    (∀ pre post, load_high_scores (some (pre ++ none :: post)) =
      load_high_scores (some (pre ++ post))) ∧
    (∀ pre post l,
      ((splitComma l).length ≠ 2 ∨ parse_i32 ((splitComma l).getD 1 []) = none) →
      load_high_scores (some (pre ++ some l :: post)) =
        load_high_scores (some (pre ++ post))) ∧
    (∀ pre post l v,
      (splitComma l).length = 2 → parse_i32 ((splitComma l).getD 1 []) = some v →
      load_high_scores (some (pre ++ some l :: post)) =
        load_high_scores (some pre) ++
          ((splitComma l).getD 0 [], v) :: load_high_scores (some post)) := by
  refine ⟨rfl, ?_, ?_, ?_⟩
  · intro pre post
    simp [load_high_scores, List.filterMap_append, List.filterMap_cons, parseRecord]
  · intro pre post l hbad
    have hf : parseRecord (some l) = none := by
      rcases hbad with h | h
      · simp [parseRecord, h]
      · by_cases hl : (splitComma l).length = 2
        · have h2 : parse_i32 (splitComma l)[1] = none := by
            rw [← List.getD_eq_getElem (splitComma l) [] (by omega)]
            exact h
          simp [parseRecord, hl, h2]
        · simp [parseRecord, hl]
    simp [load_high_scores, List.filterMap_append, List.filterMap_cons, hf]
  · intro pre post l v hl hv
    have hf : parseRecord (some l) = some ((splitComma l).getD 0 [], v) := by
      have hv2 : parse_i32 (splitComma l)[1] = some v := by
        rw [← List.getD_eq_getElem (splitComma l) [] (by omega)]
        exact hv
      simp [parseRecord, hl, hv2]
    simp [load_high_scores, List.filterMap_append, List.filterMap_cons, hf]

/-- C9 witness: a concrete file with a good line, a malformed line, a bad-score
line and a failed line read loads exactly the one good record. -/
theorem load_high_scores_spec_witness :
    ((splitComma ('b' :: 'a' :: 'd' :: [])).length ≠ 2 ∨
      parse_i32 ((splitComma ('b' :: 'a' :: 'd' :: [])).getD 1 []) = none) ∧
    load_high_scores (some ([some ('a' :: ',' :: '7' :: [])] ++
        some ('b' :: 'a' :: 'd' :: []) :: [none])) =
      load_high_scores (some ([some ('a' :: ',' :: '7' :: [])] ++ [none])) :=
  ⟨by decide,
    (load_high_scores_spec.2.2.1 [some ('a' :: ',' :: '7' :: [])] [none]
      ('b' :: 'a' :: 'd' :: []) (by decide))⟩

/-- C4: the rotation intent (modelled from the spec, the ArrowUp handler being a
label-only stub in src) computes the 90° transpose-and-reverse rotation of the
active shape, validates the prospective rotated shape via the collision
resolver at the current anchor, commits it exactly when there is no collision
and leaves the shape unchanged otherwise; and rotating any reachable shape
(any rotation of a canonical mask) four times restores it exactly. -/
theorem rotate_active_spec (s : CT) (b : Block) (hab : s.active_block = some b) :
    (checkCollisionAt s.grid (some { b with shape := rotate_shape b.shape }) = true →
      rotate_active s = s) ∧
    (checkCollisionAt s.grid (some { b with shape := rotate_shape b.shape }) = false →
      rotate_active s =
        { s with active_block := some { b with shape := rotate_shape b.shape } }) ∧
    (∀ k : BlockType, ∀ j : Nat,
      rotate_shape^[4] (rotate_shape^[j] (blockShape k)) = rotate_shape^[j] (blockShape k)) := by
  refine ⟨?_, ?_, ?_⟩
  · intro h
    simp [rotate_active, hab, h]
  · intro h
    simp [rotate_active, hab, h]
  · intro k j
    have h4 : rotate_shape^[4] (blockShape k) = blockShape k := by
      cases k <;> decide
    rw [← Function.iterate_add_apply, Nat.add_comm, Function.iterate_add_apply, h4]

/-- C4 witness: rotating the O block on the empty board commits (the rotated
2×2 mask does not collide at the current anchor). -/
theorem rotate_active_spec_witness :
    baseCT.active_block = some blockO ∧
    checkCollisionAt baseCT.grid (some { blockO with shape := rotate_shape blockO.shape })
      = false ∧
    rotate_active baseCT =
      { baseCT with active_block := some { blockO with shape := rotate_shape blockO.shape } } :=
  ⟨rfl, by decide, (rotate_active_spec baseCT blockO rfl).2.1 (by decide)⟩

/-- C5: in a GameOver-phase state, every frame whose input clicks neither
game-over-screen button — in particular any sequence of gravity ticks, arrow
keys (the move and rotate intents), Space or Escape — leaves the state, and so
the board, the score and the phase, completely unchanged; any input that does
leave the GameOver phase must be part of the restart navigation (Submit Score
or Back to Start), and the start operation itself re-enters Playing. -/
theorem game_over_noop (s : CT) (hs : s.state = GameState.GameOver) :
    (∀ l : List Input, (∀ i ∈ l, i.submit_clicked = false ∧ i.back_clicked = false) →
      l.foldlM update s = some s) ∧
    (∀ i t, update s i = some t → t.state ≠ GameState.GameOver →
      i.submit_clicked = true ∨ i.back_clicked = true) ∧
    (∀ r : Fin 7, (reset_game s r).state = GameState.Playing) := by
  have hstep : ∀ i : Input, i.submit_clicked = false → i.back_clicked = false →
      update s i = some s := by
    intro i h1 h2
    simp [update, hs, render_game_over, h1, h2]
  refine ⟨?_, ?_, ?_⟩
  · intro l
    induction l with
    | nil => intro _; rfl
    | cons i t ih =>
      intro hall
      have hi := hall i (List.mem_cons_self i t)
      rw [List.foldlM_cons, hstep i hi.1 hi.2]
      exact ih fun j hj => hall j (List.mem_cons_of_mem i hj)
  · intro i t hup hne
    cases hsub : i.submit_clicked with
    | true => exact Or.inl rfl
    | false =>
      cases hback : i.back_clicked with
      | true => exact Or.inr rfl
      | false =>
        rw [hstep i hsub hback] at hup
        simp at hup
        rw [← hup] at hne
        exact absurd hs hne
  · intro r
    rfl

/-- C5 witness: from a concrete GameOver state, a left press, a right press, a
rotation press, a gravity tick and an Escape press all leave the state intact. -/
theorem game_over_noop_witness :
    overCT.state = GameState.GameOver ∧
    [inpOnly true false false, inpOnly false true false, inpOnly false false true,
      { inpOnly false false false with up := true },
      { inpOnly false false false with escape := true }, tickInput].foldlM update overCT
      = some overCT :=
  ⟨rfl, (game_over_noop overCT rfl).1 _ (by decide)⟩

theorem lock_block_pause (s : CT) : ∀ t, lock_block s = some t → t.is_paused = s.is_paused := by
  intro t h
  unfold lock_block at h
  cases hab : s.active_block with
  | none =>
    rw [hab] at h
    simp at h
    rw [← h]
  | some b =>
    rw [hab] at h
    dsimp only at h
    cases hl : lock_cells s.grid (absCells1 b.shape b.position) with
    | none => rw [hl] at h; cases h
    | some g =>
      rw [hl] at h
      simp at h
      rw [← h]

theorem move_block_down_pause (s : CT) (k : Fin 7) :
    ∀ t, move_block_down s k = some t → t.is_paused = s.is_paused := by
  intro t h
  unfold move_block_down at h
  cases hab : s.active_block with
  | none =>
    rw [hab] at h
    simp at h
    rw [← h]
  | some b =>
    rw [hab] at h
    simp only at h
    split at h
    · split at h
      · cases h
      · rename_i s3 heq
        have hp3 := lock_block_pause _ s3 heq
        split at h
        · simp at h
          rw [← h]
          exact hp3
        · simp at h
          rw [← h]
          exact hp3
    · simp at h
      rw [← h]

/-- C10: in a Playing-phase frame whose drop timer has elapsed, the gravity
step `move_block_down` runs even when the game is paused (after the Space
toggle): the frame's result is exactly the gravity step applied to the
pause-toggled state, independent of every key input — the pause flag only
suppresses rendering and player-input handling, so board, score, phase and
active piece can still change while paused. -/
theorem paused_gravity_spec (s : CT) (i : Input) (hst : s.state = GameState.Playing)
    (hp : (togglePause s i).is_paused = true) (he : i.elapsed = true) :
    update s i = move_block_down (togglePause s i) i.rand := by
  rw [update]
  rw [hst]
  rw [render_gameplay, he]
  simp only [if_true]
  cases hmv : move_block_down (togglePause s i) i.rand with
  | none => rfl
  | some t =>
    have htp : t.is_paused = true := by
      rw [move_block_down_pause _ _ t hmv]
      exact hp
    simp [Option.bind, htp]

/-- C10 witness: a concrete paused Playing frame with the timer elapsed equals
the gravity step applied to the paused state. -/
theorem paused_gravity_spec_witness :
    pausedCT.state = GameState.Playing ∧
    (togglePause pausedCT tickInput).is_paused = true ∧
    tickInput.elapsed = true ∧
    update pausedCT tickInput =
      move_block_down (togglePause pausedCT tickInput) tickInput.rand :=
  ⟨rfl, rfl, rfl, paused_gravity_spec pausedCT tickInput rfl rfl rfl⟩

theorem blockShape_col0 (k : BlockType) :
    ∃ q ∈ offsetsBy (fun c => c != 0) (blockShape k), q.1 = 0 := by
  cases k <;> decide

theorem blockShape_colLast (k : BlockType) :
    ∃ q ∈ offsetsBy (fun c => c != 0) (blockShape k),
      q.1 = ((blockShape k).getD 0 []).length - 1 := by
  cases k <;> decide

theorem blockShape_row0_pos (k : BlockType) : 1 ≤ ((blockShape k).getD 0 []).length := by
  cases k <;> decide

/-- C7 (amended): for the left and right move intents the controller computes
the candidate anchor one cell left/right of the current one, commits it exactly
when `check_collision_with_position` reports no collision (the handlers' extra
positional guards are implied by a no-collision report for the canonical
shapes), and changes nothing on a collision report; the soft-drop intent
(ArrowDown), however, is a label-only stub that never moves the piece —
downward movement happens only through the gravity tick. -/
theorem move_intent_spec (s : CT) (b : Block) (k : BlockType) (hc : Bool)
    (hst : s.state = GameState.Playing) (hab : s.active_block = some b)
    (hsh : b.shape = blockShape k) (hp : s.is_paused = false) :
    (check_collision_with_position s (b.position.1 - 1, b.position.2) = some hc →
      update s (inpOnly true false false) =
        some (if hc then s
          else { s with
            active_block := some { b with position := (b.position.1 - 1, b.position.2) } })) ∧
    (check_collision_with_position s (b.position.1 + 1, b.position.2) = some hc →
      update s (inpOnly false true false) =
        some (if hc then s
          else { s with
            active_block := some { b with position := (b.position.1 + 1, b.position.2) } })) ∧
    update s (inpOnly false false true) = some s := by
  refine ⟨?_, ?_, ?_⟩
  · intro hcc
    have hgo : ccwpGo s.grid (absCellsNZ b.shape (b.position.1 - 1, b.position.2)) = some hc := by
      rw [check_collision_with_position, hab] at hcc
      exact hcc
    cases hc with
    | true =>
      simp [update, hst, render_gameplay, togglePause, inpOnly, hp, arrow_left, hab,
        check_collision_with_position, hgo]
    | false =>
      obtain ⟨q, hq, hq1⟩ := blockShape_col0 k
      have hmem : (b.position.1 - 1 + (q.1 : Int), b.position.2 + (q.2 : Int)) ∈
          absCellsNZ b.shape (b.position.1 - 1, b.position.2) := by
        rw [hsh, absCellsNZ, absCellsBy]
        exact List.mem_map_of_mem _ hq
      have hbd := ccwpGo_some_false s.grid _ hgo _ hmem
      have hx : b.position.1 > 0 := by
        have h1 := hbd.1
        rw [hq1] at h1
        simp at h1
        omega
      simp [update, hst, render_gameplay, togglePause, inpOnly, hp, arrow_left, hab,
        check_collision_with_position, hgo, hx]
  · intro hcc
    have hgo : ccwpGo s.grid (absCellsNZ b.shape (b.position.1 + 1, b.position.2)) = some hc := by
      rw [check_collision_with_position, hab] at hcc
      exact hcc
    cases hc with
    | true =>
      simp [update, hst, render_gameplay, togglePause, inpOnly, hp, arrow_right, hab,
        check_collision_with_position, hgo]
    | false =>
      obtain ⟨q, hq, hq1⟩ := blockShape_colLast k
      have hmem : (b.position.1 + 1 + (q.1 : Int), b.position.2 + (q.2 : Int)) ∈
          absCellsNZ b.shape (b.position.1 + 1, b.position.2) := by
        rw [hsh, absCellsNZ, absCellsBy]
        exact List.mem_map_of_mem _ hq
      have hbd := ccwpGo_some_false s.grid _ hgo _ hmem
      have hwpos := blockShape_row0_pos k
      have hx : b.position.1 + ((b.shape.getD 0 []).length : Int) ≤ (GRID_WIDTH : Int) := by
        have h2 := hbd.2.1
        rw [hq1] at h2
        rw [hsh]
        omega
      simp [update, hst, render_gameplay, togglePause, inpOnly, hp, arrow_right, hab,
        check_collision_with_position, hgo, hx]
      intro hcontra
      exact absurd hcontra (by rw [List.getD_eq_getElem?_getD] at hx; omega)
  · simp [update, hst, render_gameplay, togglePause, inpOnly, hp]

/-- C7 counterexample: on the empty board the soft-drop candidate one cell
below the O block does not collide, yet the ArrowDown intent leaves the state
unchanged — the down intent does not commit the candidate the claim requires. -/
theorem soft_drop_cex :
    update baseCT (inpOnly false false true) = some baseCT ∧
    check_collision_with_position baseCT (blockO.position.1, blockO.position.2 + 1)
      = some false := by
  constructor
  · rfl
  · rfl

/-- C7 witness: a left press on the O block at the spawn anchor commits the
move one cell to the left. -/
theorem move_intent_spec_witness :
    (baseCT.state = GameState.Playing ∧ baseCT.active_block = some blockO ∧
      blockO.shape = blockShape BlockType.O ∧ baseCT.is_paused = false ∧
      check_collision_with_position baseCT (blockO.position.1 - 1, blockO.position.2)
        = some false) ∧
    update baseCT (inpOnly true false false) =
      some (if false then baseCT
        else { baseCT with
          active_block := some { blockO with
            position := (blockO.position.1 - 1, blockO.position.2) } }) :=
  ⟨⟨rfl, rfl, rfl, rfl, by decide⟩,
    (move_intent_spec baseCT blockO BlockType.O false rfl rfl rfl rfl).1 (by decide)⟩

theorem getD_set_eq {α : Type} (l : List α) (n : Nat) (a d : α) (h : n < l.length) :
    (l.set n a).getD n d = a := by
  rw [List.getD_eq_getElem?_getD, List.getElem?_set_eq_of_lt a h, Option.getD_some]

theorem getD_set_ne {α : Type} (l : List α) (n m : Nat) (a d : α) (h : n ≠ m) :
    (l.set n a).getD m d = l.getD m d := by
  rw [List.getD_eq_getElem?_getD, List.getElem?_set_ne h, ← List.getD_eq_getElem?_getD]

theorem getCellN_set2 (g : Grid) (y x yy xx : Nat)
    (hy : y < g.length) (hx : x < (g.getD y []).length) :
    getCellN (set2 g y x 1) yy xx =
      if yy = y ∧ xx = x then 1 else getCellN g yy xx := by
  unfold getCellN set2
  by_cases h1 : yy = y
  · subst h1
    rw [getD_set_eq _ _ _ _ hy]
    by_cases h2 : xx = x
    · subst h2
      rw [if_pos ⟨rfl, rfl⟩, getD_set_eq _ _ _ _ hx]
    · rw [if_neg (by tauto), getD_set_ne _ _ _ _ _ (fun he => h2 he.symm)]
  · rw [if_neg (by tauto), getD_set_ne _ _ _ _ _ (fun he => h1 he.symm)]

theorem set2_wf (g : Grid) (y x : Nat) (hy : y < g.length)
    (hlen : g.length = GRID_HEIGHT) (hw : ∀ r ∈ g, r.length = GRID_WIDTH) :
    (set2 g y x 1).length = GRID_HEIGHT ∧ ∀ r ∈ set2 g y x 1, r.length = GRID_WIDTH := by
  constructor
  · rw [set2, List.length_set, hlen]
  · intro r hr
    rcases List.mem_or_eq_of_mem_set hr with h | h
    · exact hw r h
    · rw [h, List.length_set]
      exact hw _ (by rw [List.getD_eq_getElem _ _ hy]; exact List.getElem_mem hy)

theorem ccGo_false_bounds (g : Grid) :
    ∀ cells : List (Int × Int), ccGo g cells = false →
      ∀ c ∈ cells, ¬(c.1 < 0 ∨ (GRID_WIDTH : Int) ≤ c.1 ∨ (GRID_HEIGHT : Int) ≤ c.2) := by
  intro cells
  induction cells with
  | nil => intro _ c hc; cases hc
  | cons c rest ih =>
    intro hr x hx
    by_cases h1 : c.1 < 0 ∨ (GRID_WIDTH : Int) ≤ c.1 ∨ (GRID_HEIGHT : Int) ≤ c.2
    · rw [ccGo, if_pos h1] at hr
      cases hr
    · by_cases h2 : 0 ≤ c.2 ∧ getCellZ g c.2 c.1 = 1
      · rw [ccGo, if_neg h1, if_pos h2] at hr
        cases hr
      · rw [ccGo, if_neg h1, if_neg h2] at hr
        rcases List.mem_cons.mp hx with rfl | hx2
        · exact h1
        · exact ih hr x hx2

theorem lock_cells_spec :
    ∀ (cells : List (Int × Int)) (g : Grid),
      g.length = GRID_HEIGHT → (∀ r ∈ g, r.length = GRID_WIDTH) →
      (∀ c ∈ cells, ¬(c.1 < 0 ∨ (GRID_WIDTH : Int) ≤ c.1 ∨ (GRID_HEIGHT : Int) ≤ c.2)) →
      ∃ g2, lock_cells g cells = some g2 ∧ g2.length = GRID_HEIGHT ∧
        (∀ r ∈ g2, r.length = GRID_WIDTH) ∧
        (∀ yy xx : Nat, yy < GRID_HEIGHT → xx < GRID_WIDTH →
          getCellN g2 yy xx =
            if ((xx : Int), (yy : Int)) ∈ cells then 1 else getCellN g yy xx) := by
  intro cells
  induction cells with
  | nil =>
    intro g hlen hw _
    exact ⟨g, rfl, hlen, hw, fun yy xx _ _ => by simp⟩
  | cons c rest ih =>
    intro g hlen hw hb
    have hbc := hb c (List.mem_cons_self c rest)
    have hbr : ∀ x ∈ rest, ¬(x.1 < 0 ∨ (GRID_WIDTH : Int) ≤ x.1 ∨ (GRID_HEIGHT : Int) ≤ x.2) :=
      fun x hx => hb x (List.mem_cons_of_mem c hx)
    by_cases hy : (0 : Int) ≤ c.2
    · have hxr : 0 ≤ c.1 ∧ c.1 < (GRID_WIDTH : Int) ∧ c.2 < (GRID_HEIGHT : Int) := by
        push_neg at hbc
        exact ⟨hbc.1, hbc.2.1, hbc.2.2⟩
      have hyN : c.2.toNat < g.length := by rw [hlen]; omega
      have hxN : c.1.toNat < (g.getD c.2.toNat []).length := by
        rw [hw _ (by rw [List.getD_eq_getElem _ _ hyN]; exact List.getElem_mem hyN)]
        omega
      have hwf := set2_wf g c.2.toNat c.1.toNat hyN hlen hw
      obtain ⟨g2, hg2, hlen2, hw2, hcell⟩ :=
        ih (set2 g c.2.toNat c.1.toNat 1) hwf.1 hwf.2 hbr
      refine ⟨g2, ?_, hlen2, hw2, ?_⟩
      · rw [lock_cells, if_pos hy, if_pos hxr]
        exact hg2
      · intro yy xx hyy hxx
        rw [hcell yy xx hyy hxx]
        by_cases hmem : ((xx : Int), (yy : Int)) ∈ rest
        · rw [if_pos hmem, if_pos (List.mem_cons_of_mem c hmem)]
        · rw [if_neg hmem, getCellN_set2 g _ _ _ _ hyN hxN]
          by_cases heq : ((xx : Int), (yy : Int)) = c
          · have h1 : yy = c.2.toNat := by
              have : (yy : Int) = c.2 := by rw [← heq]
              omega
            have h2 : xx = c.1.toNat := by
              have : (xx : Int) = c.1 := by rw [← heq]
              omega
            rw [if_pos ⟨h1, h2⟩, if_pos (by rw [heq]; exact List.mem_cons_self c rest)]
          · have hnot : ¬(yy = c.2.toNat ∧ xx = c.1.toNat) := by
              rintro ⟨h1, h2⟩
              apply heq
              have e1 : (xx : Int) = c.1 := by omega
              have e2 : (yy : Int) = c.2 := by omega
              rw [e1, e2]
            rw [if_neg hnot, if_neg (by
              intro hmem2
              rcases List.mem_cons.mp hmem2 with h | h
              · exact heq h
              · exact hmem h)]
    · obtain ⟨g2, hg2, hlen2, hw2, hcell⟩ := ih g hlen hw hbr
      refine ⟨g2, ?_, hlen2, hw2, ?_⟩
      · rw [lock_cells, if_neg hy]
        exact hg2
      · intro yy xx hyy hxx
        rw [hcell yy xx hyy hxx]
        by_cases hmem : ((xx : Int), (yy : Int)) ∈ rest
        · rw [if_pos hmem, if_pos (List.mem_cons_of_mem c hmem)]
        · rw [if_neg hmem, if_neg (by
            intro hmem2
            rcases List.mem_cons.mp hmem2 with h | h
            · rw [← h] at hy
              simp at hy
            · exact hmem h)]

/-- C3: in the Playing phase the gravity tick `move_block_down` first attempts
to move the active piece down one cell, committing the move when it does not
collide; when it would collide, the piece stays at its prior position and is
locked into the board — each occupied cell with `y ≥ 0` is marked occupied,
cells with `y < 0` are silently skipped, neither locked nor an error — then
full rows are cleared with the score credited, a replacement piece is spawned,
and the phase becomes GameOver exactly when the fresh piece immediately
collides. -/
theorem move_block_down_spec (s : CT) (b : Block) (k : Fin 7)
    (hst : s.state = GameState.Playing) (hab : s.active_block = some b)
    (hlen : s.grid.length = GRID_HEIGHT) (hw : ∀ r ∈ s.grid, r.length = GRID_WIDTH)
    (hok : checkCollisionAt s.grid (some b) = false) :
    (checkCollisionAt s.grid
        (some { b with position := (b.position.1, b.position.2 + 1) }) = false →
      move_block_down s k = some { s with
        active_block := some { b with position := (b.position.1, b.position.2 + 1) } }) ∧
    (checkCollisionAt s.grid
        (some { b with position := (b.position.1, b.position.2 + 1) }) = true →
      ∃ g2, lock_cells s.grid (absCells1 b.shape b.position) = some g2 ∧
        (∀ yy xx : Nat, yy < GRID_HEIGHT → xx < GRID_WIDTH →
          getCellN g2 yy xx =
            if ((xx : Int), (yy : Int)) ∈ absCells1 b.shape b.position then 1
            else getCellN s.grid yy xx) ∧
        move_block_down s k = some { s with
          grid := (clear_lines g2 s.score).1
          score := (clear_lines g2 s.score).2
          active_block := some (generate_random_block k)
          state :=
            if checkCollisionAt (clear_lines g2 s.score).1 (some (generate_random_block k))
            then GameState.GameOver else s.state }) := by
  have hok2 : ccGo s.grid (absCells1 b.shape b.position) = false := hok
  constructor
  · intro hnc
    have hnc2 : check_collision { s with
        active_block := some { b with position := (b.position.1, b.position.2 + 1) } }
        = false := hnc
    unfold move_block_down
    rw [hab]
    dsimp only
    simp [hnc2]
  · intro hcol
    obtain ⟨g2, hg2, hlen2, hw2, hcell⟩ :=
      lock_cells_spec (absCells1 b.shape b.position) s.grid hlen hw
        (ccGo_false_bounds s.grid _ hok2)
    refine ⟨g2, hg2, hcell, ?_⟩
    have hcol2 : check_collision { s with
        active_block := some { b with position := (b.position.1, b.position.2 + 1) } }
        = true := hcol
    unfold move_block_down
    rw [hab]
    dsimp only
    rw [if_pos hcol2]
    have hrev : ({ s with active_block := some { b with
        position := ((b.position.1, b.position.2 + 1).1, (b.position.1, b.position.2 + 1).2 - 1) } }
        : CT) = s := by
      have hb2 : ({ b with
          position := ((b.position.1, b.position.2 + 1).1,
            (b.position.1, b.position.2 + 1).2 - 1) } : Block) = b := by
        cases b with
        | mk bt pos sh => simp
      rw [hb2, ← hab]
    rw [hrev]
    simp only [lock_block, hab, hg2, Option.map_some, Option.map_some']
    by_cases hgo : checkCollisionAt (clear_lines g2 s.score).1 (some (generate_random_block k))
      = true
    · have hgo2 : check_collision { s with
          grid := (clear_lines g2 s.score).1
          score := (clear_lines g2 s.score).2
          active_block := some (generate_random_block k) } = true := hgo
      rw [if_pos hgo2, if_pos hgo]
    · have hgo2 : check_collision { s with
          grid := (clear_lines g2 s.score).1
          score := (clear_lines g2 s.score).2
          active_block := some (generate_random_block k) } = true → False := fun h =>
        absurd h hgo
      rw [if_neg hgo2, if_neg hgo, hst]

/-- C3 witness: with the O block at (49, 30) on the empty board the gravity
step collides below, locks the four cells, clears nothing, and respawns. -/
theorem move_block_down_spec_witness :
    (dropCT.state = GameState.Playing ∧ dropCT.active_block = some blockO30 ∧
      dropCT.grid.length = GRID_HEIGHT ∧ (∀ r ∈ dropCT.grid, r.length = GRID_WIDTH) ∧
      checkCollisionAt dropCT.grid (some blockO30) = false ∧
      checkCollisionAt dropCT.grid
        (some { blockO30 with
          position := (blockO30.position.1, blockO30.position.2 + 1) }) = true) ∧
    (∃ g2, lock_cells dropCT.grid (absCells1 blockO30.shape blockO30.position) = some g2 ∧
      (∀ yy xx : Nat, yy < GRID_HEIGHT → xx < GRID_WIDTH →
        getCellN g2 yy xx =
          if ((xx : Int), (yy : Int)) ∈ absCells1 blockO30.shape blockO30.position then 1
          else getCellN dropCT.grid yy xx) ∧
      move_block_down dropCT 0 = some { dropCT with
        grid := (clear_lines g2 dropCT.score).1
        score := (clear_lines g2 dropCT.score).2
        active_block := some (generate_random_block 0)
        state :=
          if checkCollisionAt (clear_lines g2 dropCT.score).1 (some (generate_random_block 0))
          then GameState.GameOver else dropCT.state }) :=
  ⟨⟨rfl, rfl, by decide, by decide, by decide, by decide⟩,
    (move_block_down_spec dropCT blockO30 0 rfl rfl (by decide) (by decide)
        (by decide)).2 (by decide)⟩
